import Mathlib

/-!
Shallow embedding of the `cube` core library
(`base.py`, `core.py`, `tool.py`, `environment.py`).

Python values carried in fields, arguments and info mappings are embedded
as the inductive `PyVal`; Python `dict` objects keyed by strings are
association lists without duplicate keys.  Machine-level concerns
(logging, the PIL image codec) are modelled as follows: an image is
identified with its (lossless) PNG byte encoding, so `Image.save(PNG)`
is the identity on the byte list and `Image.open` of those bytes is the
image itself; logging is ignored.  Raised Python exceptions are embedded
as `Except.error` results, `None`-able references as `Option`.
-/

namespace Cube

/-- Embedding of the Python values stored in `dict`/`list` fields. -/
inductive PyVal where
  | str (s : String)
  | int (n : Int)
  | bool (b : Bool)
  | pynone
  | list (xs : List PyVal)
  | dict (entries : List (String × PyVal))
deriving Repr

/-- Python `d[k]` lookup on a string-keyed dict (association list). -/
def dictLookup (k : String) : List (String × PyVal) → Option PyVal
  | [] => none
  | (k2, v) :: rest => if k2 = k then some v else dictLookup k rest

/-- Python `d[k] = v` assignment: overwrite in place if present, else append. -/
def dictSet (d : List (String × PyVal)) (k : String) (v : PyVal) :
    List (String × PyVal) :=
  if (dictLookup k d).isSome then
    d.map (fun p => if p.1 = k then (k, v) else p)
  else
    d ++ [(k, v)]

/-- Python `d.pop(k)`: the dict with key `k` removed. -/
def dictPop (d : List (String × PyVal)) (k : String) : List (String × PyVal) :=
  d.filter (fun p => !(p.1 = k))

/-!
## `base.py` — `TypedBaseModel`

The Python mechanism is generic over every `pydantic` subclass reachable
through `importlib`.  The embedding instantiates it over a closed
universe of two concrete subclasses of one abstract config base (the
situation named by the source docstring: `AgentConfig` with concrete
`ReactAgentConfig`, here joined by a second concrete subclass), and the
`importlib.import_module` + `getattr` dynamic lookup is embedded as the
fixed resolution table `resolveType` over the fully-qualified names of
those classes.  Field-by-field pydantic validation of each concrete
class is the corresponding `validate…` function.
-/

/-- Closed universe of concrete `TypedBaseModel` subclasses used for
verification: two concrete agent-config classes under one abstract base. -/
inductive TypedValue where
  | reactAgentConfig (steps : Int)
  | planningAgentConfig (steps : Int) (plan : String)
deriving Repr

/-- `f"{self.__class__.__module__}.{self.__class__.__name__}"` for the
runtime class of the instance. -/
def TypedValue.fqn : TypedValue → String
  | .reactAgentConfig _ => "agents.ReactAgentConfig"
  | .planningAgentConfig _ _ => "agents.PlanningAgentConfig"

/-- `handler(self)` of the wrapped pydantic serializer: the plain
field-name-to-value mapping of the instance, without any type tag. -/
def TypedValue.fieldsOf : TypedValue → List (String × PyVal)
  | .reactAgentConfig steps => [("steps", .int steps)]
  | .planningAgentConfig steps plan => [("steps", .int steps), ("plan", .str plan)]

/-- Pydantic field validation of the concrete class `ReactAgentConfig`. -/
def validateReactAgentConfig (d : List (String × PyVal)) : Option TypedValue :=
  match dictLookup "steps" d with
  | some (.int steps) => some (.reactAgentConfig steps)
  | _ => none

/-- Pydantic field validation of the concrete class `PlanningAgentConfig`. -/
def validatePlanningAgentConfig (d : List (String × PyVal)) : Option TypedValue :=
  match dictLookup "steps" d, dictLookup "plan" d with
  | some (.int steps), some (.str plan) => some (.planningAgentConfig steps plan)
  | _, _ => none

/-- `importlib.import_module(module_name)` followed by
`getattr(module, class_name)` and `model_validate` of the resolved
class, over the closed universe: maps a fully-qualified type path to the
validator of the named concrete class (`none` embeds the raised
`ImportError`/`AttributeError` when the lookup fails). -/
def resolveType : String → Option (List (String × PyVal) → Option TypedValue)
  | "agents.ReactAgentConfig" => some validateReactAgentConfig
  | "agents.PlanningAgentConfig" => some validatePlanningAgentConfig
  | _ => none

/-- `TypedBaseModel._serialize_with_type`: run the normal field
serialization, then set the reserved `_type` key to the fully-qualified
runtime class name. -/
def TypedBaseModel.serialize_with_type (v : TypedValue) : List (String × PyVal) :=
  dictSet v.fieldsOf "_type" (.str v.fqn)

/-- `TypedBaseModel._deserialize_with_type`: if the mapping carries the
reserved `_type` key, pop it, resolve the named class dynamically and
validate the remaining fields against that class; otherwise fall through
to `handler(value)`, i.e. validation against the statically declared
type (the parameter `declared`).  `none` embeds a raised error. -/
def TypedBaseModel.deserialize_with_type
    (declared : List (String × PyVal) → Option TypedValue)
    (value : List (String × PyVal)) : Option TypedValue :=
  match dictLookup "_type" value with
  | some (.str type_path) =>
      match resolveType type_path with
      | some actual_cls => actual_cls (dictPop value "_type")
      | none => none
  | some _ => none
  | none => declared value

/-!
## `core.py` — base64 image encoding

`base64.b64encode` / `base64.b64decode` over byte lists (each byte a
`Nat` below 256), standard alphabet with `=` padding.  `b64Decode`
returns `none` where the Python decoder raises `binascii.Error`.
-/

/-- The standard base64 alphabet. -/
def b64Alphabet : List Char :=
  "ABCDEFGHIJKLMNOPQRSTUVWXYZabcdefghijklmnopqrstuvwxyz0123456789+/".toList

/-- The character encoding a six-bit group. -/
def sixToChar (n : Nat) : Char := b64Alphabet.getD n 'A'

/-- The six-bit group encoded by a character (`none` if the character is
outside the alphabet). -/
def charToSix (c : Char) : Option Nat :=
  b64Alphabet.indexOf? c

/-- `base64.b64encode`: bytes to base64 characters, three bytes per
four characters, `=`-padded. -/
def b64Encode : List Nat → List Char
  | [] => []
  | [b1] =>
      [sixToChar (b1 / 4), sixToChar (b1 % 4 * 16), '=', '=']
  | [b1, b2] =>
      [sixToChar (b1 / 4), sixToChar (b1 % 4 * 16 + b2 / 16),
       sixToChar (b2 % 16 * 4), '=']
  | b1 :: b2 :: b3 :: rest =>
      sixToChar (b1 / 4) :: sixToChar (b1 % 4 * 16 + b2 / 16) ::
      sixToChar (b2 % 16 * 4 + b3 / 64) :: sixToChar (b3 % 64) ::
      b64Encode rest

/-- `base64.b64decode`: base64 characters back to bytes; `none` embeds
the `binascii.Error` raised on malformed input. -/
def b64Decode : List Char → Option (List Nat)
  | [] => some []
  | c1 :: c2 :: c3 :: c4 :: rest => do
      let s1 ← charToSix c1
      let s2 ← charToSix c2
      if c3 = '=' ∧ c4 = '=' ∧ rest = [] then
        pure [s1 * 4 + s2 / 16]
      else
        let s3 ← charToSix c3
        if c4 = '=' ∧ rest = [] then
          pure [s1 * 4 + s2 / 16, s2 % 16 * 16 + s3 / 4]
        else
          let s4 ← charToSix c4
          let tail ← b64Decode rest
          pure ((s1 * 4 + s2 / 16) :: (s2 % 16 * 16 + s3 / 4) ::
                (s3 % 4 * 64 + s4) :: tail)
  | _ => none

theorem charToSix_sixToChar : ∀ n < 64, charToSix (sixToChar n) = some n := by
  decide

theorem sixToChar_ne_pad : ∀ n < 64, sixToChar n ≠ '=' := by
  decide


theorem b64_roundtrip (bs : List Nat) (h : ∀ b ∈ bs, b < 256) :
    b64Decode (b64Encode bs) = some bs := by
  induction bs using b64Encode.induct with
  | case1 => rfl
  | case2 b1 =>
    have hb1 : b1 < 256 := h b1 (by simp)
    have h1 : charToSix (sixToChar (b1 / 4)) = some (b1 / 4) :=
      charToSix_sixToChar _ (by omega)
    have h2 : charToSix (sixToChar (b1 % 4 * 16)) = some (b1 % 4 * 16) :=
      charToSix_sixToChar _ (by omega)
    simp [b64Encode, b64Decode, h1, h2]
    omega
  | case3 b1 b2 =>
    have hb1 : b1 < 256 := h b1 (by simp)
    have hb2 : b2 < 256 := h b2 (by simp)
    have h1 : charToSix (sixToChar (b1 / 4)) = some (b1 / 4) :=
      charToSix_sixToChar _ (by omega)
    have h2 : charToSix (sixToChar (b1 % 4 * 16 + b2 / 16)) =
        some (b1 % 4 * 16 + b2 / 16) :=
      charToSix_sixToChar _ (by omega)
    have h3 : charToSix (sixToChar (b2 % 16 * 4)) = some (b2 % 16 * 4) :=
      charToSix_sixToChar _ (by omega)
    have h3ne : sixToChar (b2 % 16 * 4) ≠ '=' := sixToChar_ne_pad _ (by omega)
    simp [b64Encode, b64Decode, h1, h2, h3, h3ne]
    constructor <;> omega
  | case4 b1 b2 b3 rest ih =>
    have hb1 : b1 < 256 := h b1 (by simp)
    have hb2 : b2 < 256 := h b2 (by simp)
    have hb3 : b3 < 256 := h b3 (by simp)
    have h1 : charToSix (sixToChar (b1 / 4)) = some (b1 / 4) :=
      charToSix_sixToChar _ (by omega)
    have h2 : charToSix (sixToChar (b1 % 4 * 16 + b2 / 16)) =
        some (b1 % 4 * 16 + b2 / 16) :=
      charToSix_sixToChar _ (by omega)
    have h3 : charToSix (sixToChar (b2 % 16 * 4 + b3 / 64)) =
        some (b2 % 16 * 4 + b3 / 64) :=
      charToSix_sixToChar _ (by omega)
    have h4 : charToSix (sixToChar (b3 % 64)) = some (b3 % 64) :=
      charToSix_sixToChar _ (by omega)
    have h3ne : sixToChar (b2 % 16 * 4 + b3 / 64) ≠ '=' :=
      sixToChar_ne_pad _ (by omega)
    have h4ne : sixToChar (b3 % 64) ≠ '=' := sixToChar_ne_pad _ (by omega)
    have htail : b64Decode (b64Encode rest) = some rest :=
      ih (fun b hb => h b (by simp [hb]))
    simp [b64Encode, b64Decode, h1, h2, h3, h4, h3ne, h4ne, htail]
    refine ⟨by omega, by omega, by omega⟩

/-!
## `core.py` — `Content`, `Observation`

`Content.data` holds one of the five declared variants
(`str | dict | list | BaseModel | Image.Image`); an image is identified
with its PNG byte encoding (`Image.save(format="PNG")` is the identity
on that byte list, `Image.open` of the bytes yields the image back).
`serialize_data` returns `Except`: `Except.error` embeds a raised
exception (for a value with no `save` attribute the interpreter raises
`AttributeError`).
-/

/-- Python `s.startswith(p)`. -/
def strStartsWith (s p : String) : Bool :=
  p.data.isPrefixOf s.data

/-- Python slicing `s[n:]` by character count. -/
def strDropChars (s : String) (n : Nat) : String :=
  ⟨s.data.drop n⟩

/-- `_image_prefix` from `core.py`. -/
def image_prefix_str : String := "data:image/png;base64,"

/-- One of the five declared variants of `Content.data`. -/
inductive ContentData where
  | text (s : String)
  | dict (entries : List (String × PyVal))
  | list (xs : List PyVal)
  | model (m : TypedValue)
  | image (png : List Nat)
deriving Repr

/-- `Content.as_base64_image_str`: save the image as PNG bytes, base64
encode them and prepend the fixed prefix. -/
def Content.as_base64_image_str (data : List Nat) : String :=
  image_prefix_str ++ ⟨b64Encode data⟩

/-- `Content.serialize_data` (the `@field_serializer("data")`): a string
passes through; everything else is sent down the image path
`as_base64_image_str`, whose `data.save(...)` call raises
`AttributeError` unless the value is an image. -/
def Content.serialize_data : ContentData → Except String String
  | .text s => .ok s
  | .image png => .ok (Content.as_base64_image_str png)
  | _ => .error "AttributeError: object has no attribute save"

/-- `Content.deserialize_data` (the `mode="before"` field validator):
a string bearing the exact image prefix is stripped, base64-decoded and
opened as an image; any other value is returned unchanged.  `none`
embeds the `binascii.Error` raised on a malformed base64 payload. -/
def Content.deserialize_data (v : ContentData) : Option ContentData :=
  match v with
  | .text s =>
      if strStartsWith s image_prefix_str then
        match b64Decode (strDropChars s image_prefix_str.length).data with
        | some decoded_image => some (.image decoded_image)
        | none => none
      else some (.text s)
  | other => some other

/-- One piece of content in an observation. -/
structure Content where
  tool_call_id : Option String
  name : Option String
  data : ContentData

/-- Python truthiness of an `str | None` value: `None` and the empty
string are falsy. -/
def optStrTruthy : Option String → Bool
  | none => false
  | some s => if s = "" then false else true

/-- Lower-case hex digit, for `json.dumps` control-character escapes. -/
def hexDigit (n : Nat) : Char :=
  "0123456789abcdef".toList.getD n '0'

/-- `json.dumps` escaping of one character: quotes, backslashes and
control characters are escaped (named escapes where Python uses them,
`\u00XX` otherwise), every other character passes through. -/
def jsonEscapeChar (c : Char) : List Char :=
  if c = '"' then ['\\', '"']
  else if c = '\\' then ['\\', '\\']
  else if c = '\n' then ['\\', 'n']
  else if c = '\t' then ['\\', 't']
  else if c = '\r' then ['\\', 'r']
  else if c.toNat = 8 then ['\\', 'b']
  else if c.toNat = 12 then ['\\', 'f']
  else if c.toNat < 32 then
    ['\\', 'u', '0', '0', hexDigit (c.toNat / 16), hexDigit (c.toNat % 16)]
  else [c]

/-- `json.dumps` rendering of a string literal, with escaping. -/
def jsonQuote (s : String) : String :=
  "\"" ++ ⟨(s.data.map jsonEscapeChar).flatten⟩ ++ "\""

mutual
/-- `json.dumps` of an embedded Python value. -/
def PyVal.dumps : PyVal → String
  | .str s => jsonQuote s
  | .int n => toString n
  | .bool b => if b then "true" else "false"
  | .pynone => "null"
  | .list xs => "[" ++ dumpsItems xs ++ "]"
  | .dict es => "\x7b" ++ dumpsEntries es ++ "\x7d"

/-- Comma-separated `json.dumps` of list items. -/
def dumpsItems : List PyVal → String
  | [] => ""
  | [x] => PyVal.dumps x
  | x :: rest => PyVal.dumps x ++ ", " ++ dumpsItems rest

/-- Comma-separated `json.dumps` of dict entries. -/
def dumpsEntries : List (String × PyVal) → String
  | [] => ""
  | [(k, v)] => jsonQuote k ++ ": " ++ PyVal.dumps v
  | (k, v) :: rest =>
      jsonQuote k ++ ": " ++ PyVal.dumps v ++ ", " ++ dumpsEntries rest
end

/-- `model_dump_json(serialize_as_any=True)` of a `TypedBaseModel`:
JSON text of the type-tagged field mapping. -/
def TypedValue.model_dump_json (m : TypedValue) : String :=
  PyVal.dumps (.dict (TypedBaseModel.serialize_with_type m))

/-- One part of a multi-part LLM message payload. -/
inductive MsgPart where
  | textPart (s : String)
  | imageUrl (url : String)
deriving Repr

/-- The `content` entry of an LLM message: plain text or typed parts. -/
inductive MsgContent where
  | text (s : String)
  | parts (ps : List MsgPart)
deriving Repr

/-- The message dict produced by `Content.to_message`; a `none`
`tool_call_id` models the key being absent from the dict. -/
structure Message where
  role : String
  content : MsgContent
  tool_call_id : Option String

/-- `Content.to_message`: role-tagged message for LLM input. -/
def Content.to_message (c : Content) : Message :=
  let msg_content : MsgContent :=
    match c.data with
    | .image png =>
        let image_part := MsgPart.imageUrl (Content.as_base64_image_str png)
        if optStrTruthy c.name then
          .parts [.textPart (c.name.getD ""), image_part]
        else
          .parts [image_part]
    | .model m => .text m.model_dump_json
    | .dict es =>
        let j := PyVal.dumps (.dict es)
        if optStrTruthy c.name then .text ("##" ++ c.name.getD "" ++ "\n" ++ j)
        else .text j
    | .list xs =>
        let j := PyVal.dumps (.list xs)
        if optStrTruthy c.name then .text ("##" ++ c.name.getD "" ++ "\n" ++ j)
        else .text j
    | .text s =>
        if optStrTruthy c.name then .text ("##" ++ c.name.getD "" ++ "\n" ++ s)
        else .text s
  let role := if optStrTruthy c.tool_call_id then "tool" else "user"
  if optStrTruthy c.tool_call_id then
    ⟨role, msg_content, c.tool_call_id⟩
  else
    ⟨role, msg_content, none⟩

/-- An observation from the environment. -/
structure Observation where
  contents : List Content

/-- `Observation.from_text`. -/
def Observation.from_text (text : String) : Observation :=
  ⟨[⟨none, none, .text text⟩]⟩

/-- `Observation.to_llm_messages`. -/
def Observation.to_llm_messages (o : Observation) : List Message :=
  o.contents.map Content.to_message

/-!
`Observation.__add__` mutates: `self.contents += other.contents;
return self`.  Object identity is modelled by a store mapping
references (naturals) to `Observation` objects; the operation returns
the updated store together with the reference of the returned object.
-/

/-- A heap of `Observation` objects addressed by reference. -/
def ObsStore : Type := Nat → Observation

/-- `Observation.__add__(self, other)` over the heap model: extend the
contents of the object behind `self` in place and return `self`. -/
def Observation.addOp (store : ObsStore) (self other : Nat) :
    ObsStore × Nat :=
  let new_contents := (store self).contents ++ (store other).contents
  (fun r => if r = self then ⟨new_contents⟩ else store r, self)

/-!
## `core.py` — `Action`, `ActionSchema`; `tool.py` — `Tool`

A concrete `Tool` is embedded as `ToolImpl`: the names declared by its
action-space protocol, the methods actually present on the concrete
class (`getattr(self, name)`), and the strings Python would interpolate
for `self.action_space` and `self.__class__.__name__` in the two error
messages.  A method invocation is a function from the unpacked keyword
arguments to a `MethodResult`: a returned value (`none` embeds a `None`
return) or a raised exception.  `Except.error` on `get_action_method` /
`execute_action` embeds the raised `ValueError`.
-/

/-- A function specification exposed to the policy. -/
structure ActionSchema where
  name : String
  description : String
  parameters : List (String × PyVal)

/-- A single function call issued by the agent. -/
structure Action where
  id : Option String
  name : String
  arguments : List (String × PyVal)

/-- Outcome of invoking a tool method: a returned Python value (`none`
embeds `None`) or a raised exception rendered as `str(e)`. -/
inductive MethodResult where
  | ret (v : Option ContentData)
  | exc (msg : String)

/-- Python truthiness of a method's return value, for
`fn(**action.arguments) or "Success"`. -/
def ContentData.isTruthy : ContentData → Bool
  | .text s => if s = "" then false else true
  | .dict [] => false
  | .dict (_ :: _) => true
  | .list [] => false
  | .list (_ :: _) => true
  | .model _ => true
  | .image _ => true

/-- A concrete tool with its declared action-space protocol. -/
structure ToolImpl where
  action_space_repr : String
  class_name : String
  action_space : List String
  methods : String → Option (List (String × PyVal) → MethodResult)

/-- `f"Action {action.name} is not a part of {self.action_space}."` -/
def unknownActionMsg (name space_repr : String) : String :=
  "Action " ++ name ++ " is not a part of " ++ space_repr ++ "."

/-- `f"Action {action.name} is not implemented in {self.__class__.__name__}."` -/
def notImplementedMsg (name cls : String) : String :=
  "Action " ++ name ++ " is not implemented in " ++ cls ++ "."

/-- `Tool.get_action_method`: fail if the name is not declared on the
action-space protocol, then fail if no method of that name exists on
the concrete tool, else return the method. -/
def Tool.get_action_method (t : ToolImpl) (action : Action) :
    Except String (List (String × PyVal) → MethodResult) :=
  if action.name ∉ t.action_space then
    .error (unknownActionMsg action.name t.action_space_repr)
  else
    match t.methods action.name with
    | none => .error (notImplementedMsg action.name t.class_name)
    | some fn => .ok fn

/-- The `try`/`except` block of `execute_action` applied to the
method's outcome: a falsy return becomes `"Success"` (the
`or "Success"` idiom), a raised exception is caught and rendered as the
error text. -/
def Tool.action_result_of (name : String) (r : MethodResult) : ContentData :=
  match r with
  | .ret (some v) => if v.isTruthy then v else .text "Success"
  | .ret none => .text "Success"
  | .exc e => .text ("Error executing action " ++ name ++ ": " ++ e)

/-- `Tool.execute_action`: look the method up (lookup errors propagate,
the lookup is outside the `try`), invoke it inside the `try`, then
build `Observation(contents=[Content(data=action_result,
tool_call_id=action.id)])`.  The `Content(...)` construction runs the
`mode="before"` data validator `deserialize_data` outside the `try`: an
image-prefixed string result is decoded into an image, and an
image-prefixed string whose payload does not decode makes the validator
raise out of `execute_action`. -/
def Tool.execute_action (t : ToolImpl) (action : Action) :
    Except String Observation :=
  match Tool.get_action_method t action with
  | .error e => .error e
  | .ok fn =>
      let action_result : ContentData :=
        Tool.action_result_of action.name (fn action.arguments)
      match Content.deserialize_data action_result with
      | some validated => .ok ⟨[⟨action.id, none, validated⟩]⟩
      | none => .error "binascii.Error: invalid base64 payload in data field"

/-!
## `environment.py` — `Environment.step`

The task and the tool the environment owns are external collaborators;
they are embedded as explicit-state interfaces.  A tool carries a state
of some type `σ` and `execute_action` maps state and action to new
state and observation; quantifying theorems over `σ` and the tool makes
the dispatch trace observable (a tool whose state logs every dispatched
action witnesses exactly which actions were dispatched, in order).  A
task carries a validation state `τ` threaded through `validate_task`
the same way, so "validate_task is invoked exactly once" is the
equation `final τ = (validate_task τ obs).1` for every task.
`accept_agent_stop`, `finished` and `validate_per_step` are embedded as
the booleans these calls return during the step.
-/

/-- `STOP_ACTION` from `environment.py`. -/
def STOP_ACTION : ActionSchema :=
  ⟨"final_step", "Stop the task execution.", []⟩

/-- The task interface consumed by `Environment.step`. -/
structure TaskModel (τ : Type) where
  validate_per_step : Bool
  accept_agent_stop : Bool
  finished : Bool
  validate_task : τ → Observation → τ × Rat × List (String × PyVal)
  obs_postprocess : Observation → Observation

/-- The tool interface consumed by `Environment.step`. -/
structure ToolModel (σ : Type) where
  execute_action : σ → Action → σ × Observation

/-- The result of one environment step. -/
structure EnvironmentOutput where
  obs : Observation
  reward : Rat
  done : Bool
  info : List (String × PyVal)

/-- `step`'s parameter: a single `Action` or a list of them. -/
inductive ActionInput where
  | single (a : Action)
  | multi (actions : List Action)

/-- `actions = [action] if isinstance(action, Action) else action`. -/
def ActionInput.normalize : ActionInput → List Action
  | .single a => [a]
  | .multi actions => actions

/-- The `for action in actions` loop of `Environment.step`: returns the
final tool state, the accumulated `tool_results`, and the `done` flag
set by the stop short-circuit (`break` drops the remaining actions). -/
def Environment.stepLoop {σ : Type} (accept : Bool) (tool : ToolModel σ)
    (s : σ) : List Action → σ × List Observation × Bool
  | [] => (s, [], false)
  | action :: rest =>
      if action.name = STOP_ACTION.name ∧ accept = true then
        (s, [Observation.from_text "Task finished by the agent."], true)
      else
        let ex := tool.execute_action s action
        let r := Environment.stepLoop accept tool ex.1 rest
        (r.1, ex.2 :: r.2.1, r.2.2)

/-- `Observation(contents=[c for o in tool_results for c in o.contents])`. -/
def Environment.stepMergedObs {σ : Type} (accept : Bool) (tool : ToolModel σ)
    (s : σ) (actions : List Action) : Observation :=
  ⟨((Environment.stepLoop accept tool s actions).2.1.map Observation.contents).flatten⟩

/-- `Environment.step`: run the loop, merge the observations, force
`done` when the task reports itself finished, gate validation on
`validate_per_step or done`, post-process the observation, and wrap
everything as (final task validation state, final tool state, output). -/
def Environment.step {σ τ : Type} (task : TaskModel τ) (tool : ToolModel σ)
    (ts : τ) (s : σ) (input : ActionInput) : τ × σ × EnvironmentOutput :=
  let actions := input.normalize
  let lr := Environment.stepLoop task.accept_agent_stop tool s actions
  let obs := Environment.stepMergedObs task.accept_agent_stop tool s actions
  let done := lr.2.2 || task.finished
  if task.validate_per_step || done then
    let v := task.validate_task ts obs
    (v.1, lr.1, ⟨task.obs_postprocess obs, v.2.1, done, v.2.2⟩)
  else
    (ts, lr.1, ⟨task.obs_postprocess obs, 0, done, []⟩)

/-- Dispatch every action in order with no stop handling.  This is the
spec side of the stop-rejection claim ("a STOP action is dispatched to
the tool like any other named action"), to be compared with
`Environment.stepLoop`. -/
def dispatchAll {σ : Type} (tool : ToolModel σ) (s : σ) :
    List Action → σ × List Observation
  | [] => (s, [])
  | action :: rest =>
      let ex := tool.execute_action s action
      let r := dispatchAll tool ex.1 rest
      (r.1, ex.2 :: r.2)

/-!
## Claim theorems
-/

/-- C1: serializing any concrete `TypedBaseModel` instance and
deserializing the result against the declared base type reconstructs
the instance with its exact runtime type (constructor) and equal
fields; the serialized mapping carries the reserved `_type` key holding
the fully-qualified runtime type; and deserializing a mapping without
the reserved key validates it directly against the declared type. -/
theorem typedbasemodel_roundtrip
    (declared : List (String × PyVal) → Option TypedValue) (V : TypedValue) :
    TypedBaseModel.deserialize_with_type declared
      (TypedBaseModel.serialize_with_type V) = some V ∧
    dictLookup "_type" (TypedBaseModel.serialize_with_type V) =
      some (.str V.fqn) ∧
    (∀ d, dictLookup "_type" d = none →
      TypedBaseModel.deserialize_with_type declared d = declared d) := by
  refine ⟨?_, ?_, ?_⟩
  · cases V <;> rfl
  · cases V <;> rfl
  · intro d hd
    unfold TypedBaseModel.deserialize_with_type
    rw [hd]

/-- Witness for C1 at a concrete instance and a concrete tag-free mapping. -/
theorem typedbasemodel_roundtrip_witness :
    TypedBaseModel.deserialize_with_type validateReactAgentConfig
      (TypedBaseModel.serialize_with_type (TypedValue.planningAgentConfig 3 "p")) =
      some (TypedValue.planningAgentConfig 3 "p") ∧
    TypedBaseModel.deserialize_with_type validateReactAgentConfig
      [("steps", PyVal.int 5)] =
      validateReactAgentConfig [("steps", PyVal.int 5)] :=
  ⟨(typedbasemodel_roundtrip validateReactAgentConfig
      (TypedValue.planningAgentConfig 3 "p")).1,
   (typedbasemodel_roundtrip validateReactAgentConfig
      (TypedValue.reactAgentConfig 0)).2.2 [("steps", PyVal.int 5)] rfl⟩

/-!
Concrete fixtures used by the witnesses: a tool whose state logs the
names of the dispatched actions in order, and small concrete tasks.
-/

/-- A logging tool: the state records every dispatched action name. -/
def witTool : ToolModel (List String) :=
  ⟨fun s a => (s ++ [a.name], ⟨[⟨a.id, none, .text ("ran " ++ a.name)⟩]⟩)⟩

/-- A task that accepts agent stop and validates only at the end. -/
def witTaskAccept : TaskModel Nat :=
  ⟨false, true, false, fun ts _ => (ts + 1, 1, []), id⟩

/-- A task that rejects agent stop. -/
def witTaskReject : TaskModel Nat :=
  ⟨false, false, false, fun ts _ => (ts + 1, 1, []), id⟩

/-- A task that validates on every step. -/
def witTaskPerStep : TaskModel Nat :=
  ⟨true, true, false, fun ts _ => (ts + 1, 1, []), id⟩

/-- A concrete tool implementation whose action space declares nothing. -/
def emptyToolImpl : ToolImpl := ⟨"EmptySpace()", "EmptyTool", [], fun _ => none⟩

/-- C2: for an action sequence `[A, STOP, B]` where `STOP` bears the
reserved stop name and the task accepts agent stop, `step` dispatches
`A` to the tool (the final tool state is exactly the state after
dispatching `A`, for every tool, so nothing after the stop action is
ever dispatched), appends the synthetic "Task finished by the agent."
text observation after `A`'s observation, and reports `done = true`. -/
theorem step_stop_short_circuit {σ τ : Type}
    (task : TaskModel τ) (tool : ToolModel σ) (ts : τ) (s : σ)
    (A ST B : Action)
    (hA : A.name ≠ STOP_ACTION.name) (hST : ST.name = STOP_ACTION.name)
    (hacc : task.accept_agent_stop = true) :
    Environment.step task tool ts s (.multi [A, ST, B]) =
      (let ex := tool.execute_action s A
       let obs : Observation :=
         ⟨ex.2.contents ++ [⟨none, none, .text "Task finished by the agent."⟩]⟩
       let v := task.validate_task ts obs
       (v.1, ex.1, ⟨task.obs_postprocess obs, v.2.1, true, v.2.2⟩)) := by
  simp [Environment.step, Environment.stepMergedObs, ActionInput.normalize,
        Environment.stepLoop, hA, hST, hacc, Observation.from_text]

/-- Witness for C2 at a concrete task, tool and action triple. -/
theorem step_stop_short_circuit_witness :
    Environment.step witTaskAccept witTool 0 []
      (.multi [⟨none, "click", []⟩, ⟨none, "final_step", []⟩,
               ⟨none, "scroll", []⟩]) =
      (let ex := witTool.execute_action [] ⟨none, "click", []⟩
       let obs : Observation :=
         ⟨ex.2.contents ++ [⟨none, none, .text "Task finished by the agent."⟩]⟩
       let v := witTaskAccept.validate_task 0 obs
       (v.1, ex.1, ⟨witTaskAccept.obs_postprocess obs, v.2.1, true, v.2.2⟩)) :=
  step_stop_short_circuit witTaskAccept witTool 0 []
    ⟨none, "click", []⟩ ⟨none, "final_step", []⟩ ⟨none, "scroll", []⟩
    (by decide) rfl rfl

/-- C4: validation gating of `Environment.step`.  When the task does
not request per-step validation and the computed `done` flag is false,
the output keeps reward `0.0` and info `{}` and `validate_task` is
never invoked (the task's validation state is returned untouched, for
every task).  When `validate_per_step` is true or `done` is true,
`validate_task` is invoked exactly once on the merged observation (the
final validation state is one application of `validate_task`) and its
result becomes the returned reward and info. -/
theorem step_validation_gating {σ τ : Type}
    (task : TaskModel τ) (tool : ToolModel σ) (ts : τ) (s : σ)
    (input : ActionInput) :
    ((task.validate_per_step = false ∧
        (Environment.step task tool ts s input).2.2.done = false) →
      (Environment.step task tool ts s input).2.2.reward = 0 ∧
      (Environment.step task tool ts s input).2.2.info = [] ∧
      (Environment.step task tool ts s input).1 = ts) ∧
    ((task.validate_per_step = true ∨
        (Environment.step task tool ts s input).2.2.done = true) →
      (Environment.step task tool ts s input).1 =
        (task.validate_task ts (Environment.stepMergedObs
          task.accept_agent_stop tool s input.normalize)).1 ∧
      (Environment.step task tool ts s input).2.2.reward =
        (task.validate_task ts (Environment.stepMergedObs
          task.accept_agent_stop tool s input.normalize)).2.1 ∧
      (Environment.step task tool ts s input).2.2.info =
        (task.validate_task ts (Environment.stepMergedObs
          task.accept_agent_stop tool s input.normalize)).2.2) := by
  cases hvps : task.validate_per_step with
  | false =>
    cases hdone : (Environment.stepLoop task.accept_agent_stop tool s
        input.normalize).2.2 || task.finished with
    | false =>
      constructor
      · intro _
        simp [Environment.step, hvps, hdone]
      · intro hor
        rcases hor with h | h
        · simp [hvps] at h
        · simp [Environment.step, hvps, hdone] at h
    | true =>
      constructor
      · intro hc
        have := hc.2
        simp [Environment.step, hvps, hdone] at this
      · intro _
        simp [Environment.step, hvps, hdone]
  | true =>
    constructor
    · intro hc
      simp [hvps] at hc
    · intro _
      simp [Environment.step, hvps]

/-- Witness for C4: a non-validating non-done step keeps the defaults
and the validation state, and a per-step-validating step returns one
application of `validate_task`. -/
theorem step_validation_gating_witness :
    ((Environment.step witTaskAccept witTool 0 []
        (.multi [⟨none, "click", []⟩])).2.2.reward = 0 ∧
      (Environment.step witTaskAccept witTool 0 []
        (.multi [⟨none, "click", []⟩])).2.2.info = [] ∧
      (Environment.step witTaskAccept witTool 0 []
        (.multi [⟨none, "click", []⟩])).1 = 0) ∧
    ((Environment.step witTaskPerStep witTool 0 []
        (.multi [⟨none, "click", []⟩])).1 =
      (witTaskPerStep.validate_task 0 (Environment.stepMergedObs
        witTaskPerStep.accept_agent_stop witTool []
        (ActionInput.multi [⟨none, "click", []⟩]).normalize)).1 ∧
      (Environment.step witTaskPerStep witTool 0 []
        (.multi [⟨none, "click", []⟩])).2.2.reward =
      (witTaskPerStep.validate_task 0 (Environment.stepMergedObs
        witTaskPerStep.accept_agent_stop witTool []
        (ActionInput.multi [⟨none, "click", []⟩]).normalize)).2.1 ∧
      (Environment.step witTaskPerStep witTool 0 []
        (.multi [⟨none, "click", []⟩])).2.2.info =
      (witTaskPerStep.validate_task 0 (Environment.stepMergedObs
        witTaskPerStep.accept_agent_stop witTool []
        (ActionInput.multi [⟨none, "click", []⟩]).normalize)).2.2) :=
  ⟨(step_validation_gating witTaskAccept witTool 0 []
      (.multi [⟨none, "click", []⟩])).1 ⟨rfl, rfl⟩,
   (step_validation_gating witTaskPerStep witTool 0 []
      (.multi [⟨none, "click", []⟩])).2 (Or.inl rfl)⟩

/-- C6: when the task does not accept agent stop, the step loop
dispatches every action — a stop-named action included — to the tool
exactly like any other named action, in order, with no short-circuit
and no synthetic stop observation and no `done` from the loop; and at
the `Tool` dispatch layer an action whose name is not declared in the
action-space protocol raises the unknown-action error out of
`execute_action`. -/
theorem step_stop_rejected {σ τ : Type}
    (task : TaskModel τ) (tool : ToolModel σ) (s : σ) (actions : List Action)
    (hacc : task.accept_agent_stop = false) :
    Environment.stepLoop task.accept_agent_stop tool s actions =
      ((dispatchAll tool s actions).1, (dispatchAll tool s actions).2, false) ∧
    (∀ (t : ToolImpl) (a : Action), a.name ∉ t.action_space →
      Tool.execute_action t a =
        Except.error (unknownActionMsg a.name t.action_space_repr)) := by
  constructor
  · induction actions generalizing s with
    | nil => rfl
    | cons a rest ih =>
      rw [hacc] at ih
      simp [Environment.stepLoop, dispatchAll, hacc, ih]
  · intro t a ha
    simp [Tool.execute_action, Tool.get_action_method, ha]

/-- Witness for C6: a rejected stop action is dispatched like any other
action, and a concrete tool with an empty action space raises the
unknown-action error for it. -/
theorem step_stop_rejected_witness :
    Environment.stepLoop witTaskReject.accept_agent_stop witTool []
        [⟨none, "final_step", []⟩] =
      ((dispatchAll witTool [] [⟨none, "final_step", []⟩]).1,
       (dispatchAll witTool [] [⟨none, "final_step", []⟩]).2, false) ∧
    Tool.execute_action emptyToolImpl ⟨none, "final_step", []⟩ =
      Except.error (unknownActionMsg "final_step"
        emptyToolImpl.action_space_repr) :=
  ⟨(step_stop_rejected witTaskReject witTool [] [⟨none, "final_step", []⟩]
      rfl).1,
   (step_stop_rejected witTaskReject witTool [] [] rfl).2 emptyToolImpl
     ⟨none, "final_step", []⟩ (by simp [emptyToolImpl])⟩

/-- The unknown-action and not-implemented error texts never coincide,
whatever the action name and however the action space and tool class
render: after the shared "Action {name} is not " stem the first
continues with "a part of" and the second with "implemented in". -/
theorem unknownActionMsg_ne_notImplementedMsg (n s c : String) :
    unknownActionMsg n s ≠ notImplementedMsg n c := by
  intro h
  unfold unknownActionMsg notImplementedMsg at h
  have hd := congrArg String.data h
  simp only [String.data_append, List.append_assoc] at hd
  have h2 := List.append_cancel_left hd
  have h3 := List.append_cancel_left h2
  have h4 := congrArg (fun l => l[8]?) h3
  simp [List.getElem?_append] at h4

/-- C7: `Tool.get_action_method` fails with the unknown-action error
when the action's name is not declared on the action-space protocol,
and with the not-implemented error when it is declared but no method of
that name exists on the concrete tool; the two error texts are always
distinct; and both errors propagate out of `execute_action` unchanged
rather than being converted into observation content. -/
theorem get_action_method_distinct_errors (t : ToolImpl) (a : Action) :
    (a.name ∉ t.action_space →
      Tool.get_action_method t a =
        Except.error (unknownActionMsg a.name t.action_space_repr) ∧
      Tool.execute_action t a =
        Except.error (unknownActionMsg a.name t.action_space_repr)) ∧
    (a.name ∈ t.action_space → t.methods a.name = none →
      Tool.get_action_method t a =
        Except.error (notImplementedMsg a.name t.class_name) ∧
      Tool.execute_action t a =
        Except.error (notImplementedMsg a.name t.class_name)) ∧
    unknownActionMsg a.name t.action_space_repr ≠
      notImplementedMsg a.name t.class_name := by
  refine ⟨?_, ?_, unknownActionMsg_ne_notImplementedMsg _ _ _⟩
  · intro ha
    have hg : Tool.get_action_method t a =
        Except.error (unknownActionMsg a.name t.action_space_repr) := by
      simp [Tool.get_action_method, ha]
    exact ⟨hg, by simp [Tool.execute_action, hg]⟩
  · intro ha hm
    have hg : Tool.get_action_method t a =
        Except.error (notImplementedMsg a.name t.class_name) := by
      simp [Tool.get_action_method, ha, hm]
    exact ⟨hg, by simp [Tool.execute_action, hg]⟩

/-- A concrete tool implementation declaring `click` without implementing it. -/
def stubToolImpl : ToolImpl := ⟨"ClickSpace()", "StubTool", ["click"], fun _ => none⟩

/-- Witness for C7 at concrete tools: an undeclared action, a declared
but unimplemented action, and the distinctness of the two error texts. -/
theorem get_action_method_distinct_errors_witness :
    (Tool.get_action_method emptyToolImpl ⟨none, "click", []⟩ =
        Except.error (unknownActionMsg "click" "EmptySpace()") ∧
      Tool.execute_action emptyToolImpl ⟨none, "click", []⟩ =
        Except.error (unknownActionMsg "click" "EmptySpace()")) ∧
    (Tool.get_action_method stubToolImpl ⟨none, "click", []⟩ =
        Except.error (notImplementedMsg "click" "StubTool") ∧
      Tool.execute_action stubToolImpl ⟨none, "click", []⟩ =
        Except.error (notImplementedMsg "click" "StubTool")) ∧
    unknownActionMsg "click" "EmptySpace()" ≠
      notImplementedMsg "click" "EmptyTool" :=
  ⟨(get_action_method_distinct_errors emptyToolImpl ⟨none, "click", []⟩).1
      (by simp [emptyToolImpl]),
   (get_action_method_distinct_errors stubToolImpl ⟨none, "click", []⟩).2.1
      (by simp [stubToolImpl]) rfl,
   (get_action_method_distinct_errors emptyToolImpl ⟨none, "click", []⟩).2.2⟩

/-- The rendered exception text never bears the image prefix: the
prefix starts with `d`, the error text with `E`. -/
theorem errorText_not_image_prefixed (n e : String) :
    strStartsWith ("Error executing action " ++ n ++ ": " ++ e)
      image_prefix_str = false := by
  simp [strStartsWith, image_prefix_str, String.data_append, List.isPrefixOf]

/-- `"Success"` never bears the image prefix. -/
theorem success_not_image_prefixed :
    strStartsWith "Success" image_prefix_str = false := rfl

/-- C3 (amended): an exception raised inside the invoked method never
propagates out of `execute_action` — it is caught and rendered as the
sole observation content "Error executing action {name}: {e}" tagged
with the action's id — and a method returning `None` yields the content
data "Success".  The frozen claim's blanket guarantee that the result
is an `Observation` for every successful lookup does not hold: the
`Content(...)` construction runs the data validator outside the `try`,
so a successful method return that is an image-prefixed undecodable
string raises out of `execute_action` (see the counterexample). -/
theorem execute_action_error_containment (t : ToolImpl) (a : Action)
    (fn : List (String × PyVal) → MethodResult)
    (h : Tool.get_action_method t a = .ok fn) :
    (∀ e, fn a.arguments = .exc e →
      Tool.execute_action t a = Except.ok ⟨[⟨a.id, none,
        .text ("Error executing action " ++ a.name ++ ": " ++ e)⟩]⟩) ∧
    (fn a.arguments = .ret none →
      Tool.execute_action t a = Except.ok ⟨[⟨a.id, none, .text "Success"⟩]⟩) := by
  constructor
  · intro e he
    simp [Tool.execute_action, h, Tool.action_result_of, he,
          Content.deserialize_data, errorText_not_image_prefixed]
  · intro he
    simp [Tool.execute_action, h, Tool.action_result_of, he,
          Content.deserialize_data, success_not_image_prefixed]

/-- A concrete tool whose `click` method raises `boom` and whose `noop`
method returns `None`. -/
def raisingToolImpl : ToolImpl :=
  ⟨"ClickSpace()", "RaisingTool", ["click", "noop"],
   fun mname =>
     if mname = "click" then some (fun _ => .exc "boom")
     else if mname = "noop" then some (fun _ => .ret none)
     else none⟩

/-- A concrete tool whose `shot` method successfully returns an
image-prefixed string whose base64 payload does not decode (three
characters cannot be valid padding, so Python's `b64decode` raises
`binascii.Error` inside the `Content` data validator). -/
def imageStringToolImpl : ToolImpl :=
  ⟨"ShotSpace()", "ImageStringTool", ["shot"],
   fun mname =>
     if mname = "shot" then
       some (fun _ => .ret (some (.text "data:image/png;base64,AAA")))
     else none⟩

/-- Counterexample to C3 as frozen: the method lookup succeeds and the
method itself raises nothing, yet `execute_action` raises — the
`Content` data validator, which runs outside the `try`, rejects the
image-prefixed undecodable return, so no `Observation` is produced. -/
theorem execute_action_error_containment_counterexample :
    Tool.get_action_method imageStringToolImpl ⟨some "id9", "shot", []⟩ =
      Except.ok (fun _ =>
        MethodResult.ret (some (.text "data:image/png;base64,AAA"))) ∧
    Tool.execute_action imageStringToolImpl ⟨some "id9", "shot", []⟩ =
      Except.error "binascii.Error: invalid base64 payload in data field" :=
  ⟨rfl, rfl⟩

/-- Witness for C3: the raised exception becomes the error content, and
a `None` return becomes "Success". -/
theorem execute_action_error_containment_witness :
    Tool.execute_action raisingToolImpl ⟨some "id1", "click", []⟩ =
      Except.ok ⟨[⟨some "id1", none,
        .text ("Error executing action " ++ "click" ++ ": " ++ "boom")⟩]⟩ ∧
    Tool.execute_action raisingToolImpl ⟨some "id2", "noop", []⟩ =
      Except.ok ⟨[⟨some "id2", none, .text "Success"⟩]⟩ :=
  ⟨(execute_action_error_containment raisingToolImpl ⟨some "id1", "click", []⟩
      (fun _ => MethodResult.exc "boom") rfl).1 "boom" rfl,
   (execute_action_error_containment raisingToolImpl ⟨some "id2", "noop", []⟩
      (fun _ => MethodResult.ret none) rfl).2 rfl⟩

/-- C9 (amended): every observation `execute_action` does return — in
the success case and the caught-exception case alike — contains exactly
one content, and that content is tagged with the action's id.  A
successful lookup alone does not guarantee an observation result,
because the `Content` data validator runs outside the `try` and may
raise on the method's return (see the counterexample). -/
theorem execute_action_sole_content_id (t : ToolImpl) (a : Action)
    (o : Observation) (h : Tool.execute_action t a = Except.ok o) :
    ∃ d, o = ⟨[⟨a.id, none, d⟩]⟩ := by
  rcases hg : Tool.get_action_method t a with e | fn
  · simp [Tool.execute_action, hg] at h
  · simp only [Tool.execute_action, hg] at h
    rcases hd : Content.deserialize_data
        (Tool.action_result_of a.name (fn a.arguments)) with _ | v
    · simp [hd] at h
    · simp [hd] at h
      exact ⟨v, h.symm⟩

/-- Counterexample to C9 as frozen: a successfully looked-up action
whose method returns an image-prefixed undecodable string makes
`execute_action` raise, so no observation — and in particular no sole
id-tagged content — is returned for it. -/
theorem execute_action_sole_content_id_counterexample :
    Tool.get_action_method imageStringToolImpl ⟨some "id10", "shot", []⟩ =
      Except.ok (fun _ =>
        MethodResult.ret (some (.text "data:image/png;base64,AAA"))) ∧
    Tool.execute_action imageStringToolImpl ⟨some "id10", "shot", []⟩ =
      Except.error "binascii.Error: invalid base64 payload in data field" :=
  ⟨rfl, rfl⟩

/-- Witness for C9 at a concretely returned observation. -/
theorem execute_action_sole_content_id_witness :
    ∃ d, (⟨[⟨some "id3", none,
        ContentData.text "Error executing action click: boom"⟩]⟩ : Observation) =
      (⟨[⟨some "id3", none, d⟩]⟩ : Observation) :=
  execute_action_sole_content_id raisingToolImpl ⟨some "id3", "click", []⟩
    ⟨[⟨some "id3", none, .text "Error executing action click: boom"⟩]⟩ rfl

/-- C8: `Observation.__add__` over the heap model.  The returned
reference is the left operand itself; the object behind it now holds
the left operand's original contents followed by the right operand's
contents, in order; and every other object — the right operand
included, when it is a distinct object — is left unchanged. -/
theorem observation_add_mutates_left (store : ObsStore) (self other : Nat) :
    (Observation.addOp store self other).2 = self ∧
    ((Observation.addOp store self other).1 self).contents =
      (store self).contents ++ (store other).contents ∧
    (∀ r, r ≠ self → (Observation.addOp store self other).1 r = store r) := by
  refine ⟨rfl, ?_, ?_⟩
  · simp [Observation.addOp]
  · intro r hr
    simp [Observation.addOp, hr]

/-- A concrete two-object heap for the C8 witness. -/
def witStore : ObsStore := fun r =>
  if r = 0 then ⟨[⟨none, none, .text "left"⟩]⟩
  else ⟨[⟨none, none, .text "right"⟩]⟩

/-- Witness for C8 on a concrete two-object heap. -/
theorem observation_add_mutates_left_witness :
    (Observation.addOp witStore 0 1).2 = 0 ∧
    ((Observation.addOp witStore 0 1).1 0).contents =
      (witStore 0).contents ++ (witStore 1).contents ∧
    (Observation.addOp witStore 0 1).1 1 = witStore 1 :=
  ⟨(observation_add_mutates_left witStore 0 1).1,
   (observation_add_mutates_left witStore 0 1).2.1,
   (observation_add_mutates_left witStore 0 1).2.2 1 (by decide)⟩

/-- C10: a `Content` whose `tool_call_id` is the empty string (set but
falsy) produces a message with role "user" and without the
`tool_call_id` key; role "tool" together with the key arises exactly
when the id is a non-empty string. -/
theorem to_message_empty_tool_call_id (c : Content) :
    (c.tool_call_id = some "" →
      c.to_message.role = "user" ∧ c.to_message.tool_call_id = none) ∧
    (∀ s2, s2 ≠ "" → c.tool_call_id = some s2 →
      c.to_message.role = "tool" ∧ c.to_message.tool_call_id = some s2) := by
  constructor
  · intro h
    simp [Content.to_message, h, optStrTruthy]
  · intro s2 hs2 h
    simp [Content.to_message, h, optStrTruthy, hs2]

/-- Concrete content with an empty (falsy) tool-call id. -/
def witContentEmptyId : Content := ⟨some "", some "nm", .text "hello"⟩

/-- Concrete content with a non-empty tool-call id. -/
def witContentFullId : Content := ⟨some "call7", none, .text "hello"⟩

/-- Witness for C10 at concrete contents. -/
theorem to_message_empty_tool_call_id_witness :
    (witContentEmptyId.to_message.role = "user" ∧
      witContentEmptyId.to_message.tool_call_id = none) ∧
    (witContentFullId.to_message.role = "tool" ∧
      witContentFullId.to_message.tool_call_id = some "call7") :=
  ⟨(to_message_empty_tool_call_id witContentEmptyId).1 rfl,
   (to_message_empty_tool_call_id witContentFullId).2 "call7" (by decide) rfl⟩

/-- C5: evaluation of the `data` field (de)serialization at concrete
inputs.  A text value passes through unchanged; an image value encodes
to the fixed-prefix base64 string and that exact string decodes back to
the byte-identical image; but a mapping value — admissible by the
declared type of the `data` field — does not serialize in its native
form: the field serializer sends every non-string value down the image
path, where `data.save(...)` raises `AttributeError`. -/
theorem serialize_data_nonstring_bug :
    Content.serialize_data (.text "hello") = Except.ok "hello" ∧
    Content.serialize_data (.image [137, 80, 78, 71]) =
      Except.ok (Content.as_base64_image_str [137, 80, 78, 71]) ∧
    Content.deserialize_data
        (.text (Content.as_base64_image_str [137, 80, 78, 71])) =
      some (.image [137, 80, 78, 71]) ∧
    Content.serialize_data (.dict [("a", .int 1)]) =
      Except.error "AttributeError: object has no attribute save" :=
  ⟨rfl, rfl, rfl, rfl⟩

/-- The image branch of the `data` field round-trips byte-identically:
for any PNG byte list, deserializing the serialized image form (the
fixed prefix followed by the base64 payload) restores the same bytes. -/
theorem serialize_data_image_roundtrip (png : List Nat)
    (h : ∀ b ∈ png, b < 256) :
    Content.deserialize_data (.text (Content.as_base64_image_str png)) =
      some (.image png) := by
  have hpre : strStartsWith (Content.as_base64_image_str png)
      image_prefix_str = true := by
    simp [strStartsWith, Content.as_base64_image_str, String.data_append,
          List.isPrefixOf_iff_prefix]
  have hdata : (Content.as_base64_image_str png).data =
      image_prefix_str.data ++ b64Encode png :=
    String.data_append image_prefix_str ⟨b64Encode png⟩
  have hdrop : (strDropChars (Content.as_base64_image_str png)
      image_prefix_str.length).data = b64Encode png := by
    show ((Content.as_base64_image_str png).data.drop image_prefix_str.length)
        = b64Encode png
    rw [hdata,
        show image_prefix_str.length = image_prefix_str.data.length from rfl,
        List.drop_left]
  simp [Content.deserialize_data, hpre, hdrop, b64_roundtrip png h]

end Cube
